import Mathlib

/-!
Verification development for the statement-tree representation layer
(`lib/AST/Stmt.cpp`): a shallow embedding of the node constructors,
trailing-array layouts, generic dispatch, clause setters, and the
GCC-dialect inline-assembly template decomposition, with theorems
settling the specified properties.

Conventions of the embedding:
* `SourceLocation` values are modelled as `Nat` offsets.
* A `Stmt *` seen from outside the file is a `StmtRef`: an identity plus the
  locations its own `getLocStart`/`getLocEnd` dispatch would report.
* A possibly-null `Stmt *` is an `Option StmtRef` (`none` = null pointer).
* Fatal internal-consistency failures (`llvm_unreachable`, failed `assert`)
  are modelled as `Option`/`Except` `none`-like results: they are never an
  ordinary return value.
-/

/-- An abstract statement reference (a `Stmt *` whose target is outside the
node under study): its identity and the source-location endpoints its own
location dispatch reports. -/
structure StmtRef where
  id : Nat
  locStart : Nat
  locEnd : Nat
deriving DecidableEq, Repr

/-- A possibly-null statement pointer (`Stmt *`; `none` is the null pointer). -/
abbrev StmtP := Option StmtRef

/-- End location of a possibly-null statement pointer; dereferencing null is
undefined in the source, here defaulted (total function used only where the
source guarantees non-null). -/
def StmtP.endD (p : StmtP) : Nat := (p.map StmtRef.locEnd).getD 0

/-- A variable declaration referenced (never owned) by a statement node:
identity and its own source range. -/
structure VarDecl where
  id : Nat
  rangeBegin : Nat
  rangeEnd : Nat
deriving DecidableEq, Repr

/-- The internal single-declaration wrapper statement (`DeclStmt` over a
`DeclGroupRef` holding one declaration) used for condition variables. -/
structure DeclStmt where
  singleDecl : VarDecl
  startLoc : Nat
  endLoc : Nat
deriving DecidableEq, Repr

/-- Render the wrapper as an opaque statement reference for child
enumeration. -/
def DeclStmt.toRef (d : DeclStmt) : StmtRef :=
  ⟨d.singleDecl.id, d.startLoc, d.endLoc⟩

/-! ## CompoundStmt (§ CompoundBlock) -/

/-- `CompoundStmt`: bounding brace locations plus the owned statement array.
`body = none` models the null backing array (`Body = 0`), used when the
statement count is zero. `numStmts` models the inline counter field. -/
structure CompoundStmt where
  numStmts : Nat
  body : Option (List StmtP)
  lbracLoc : Nat
  rbracLoc : Nat
deriving DecidableEq, Repr

/-- `CompoundStmt::CompoundStmt` (Stmt.cpp:255): stores the count; for an
empty sequence leaves the backing array null, otherwise copies the
sequence. The counter is a bit-field in the (header-side) class; the bit
width is not given by this file, so the count is modelled exactly. -/
def CompoundStmt.construct (Stmts : List StmtP) (LB RB : Nat) : CompoundStmt :=
  { numStmts := Stmts.length
    body := if Stmts.length = 0 then none else some Stmts
    lbracLoc := LB
    rbracLoc := RB }

/-- `CompoundStmt::children` (header): the half-open range
`[Body, Body + NumStmts)`; with a null backing array the range is empty. -/
def CompoundStmt.childrenList (c : CompoundStmt) : List StmtP :=
  match c.body with
  | none => []
  | some l => l.take c.numStmts

/-! ## Condition-variable wrappers (IfStmt / WhileStmt / ForStmt / SwitchStmt) -/

/-- `IfStmt`: sub-expression slots `VAR, COND, THEN, ELSE` plus locations.
The `VAR` slot holds the internal `DeclStmt` wrapper or is null. -/
structure IfStmt where
  varSlot : Option DeclStmt
  cond : StmtP
  thenB : StmtP
  elseB : StmtP
  ifLoc : Nat
  elseLoc : Nat
deriving DecidableEq, Repr

/-- `IfStmt::setConditionVariable` (Stmt.cpp:842): null clears the slot;
otherwise wrap the declaration in a `DeclStmt` spanning the declaration's
own source range. -/
def IfStmt.setConditionVariable (s : IfStmt) (V : Option VarDecl) : IfStmt :=
  match V with
  | none => { s with varSlot := none }
  | some v => { s with varSlot := some ⟨v, v.rangeBegin, v.rangeEnd⟩ }

/-- `IfStmt::getConditionVariable` (Stmt.cpp:834): null slot gives null;
otherwise unwrap the single declaration of the wrapper. -/
def IfStmt.getConditionVariable (s : IfStmt) : Option VarDecl :=
  s.varSlot.map DeclStmt.singleDecl

/-- `WhileStmt`: slots `VAR, COND, BODY` plus the `while` location. -/
structure WhileStmt where
  varSlot : Option DeclStmt
  cond : StmtP
  body : StmtP
  whileLoc : Nat
deriving DecidableEq, Repr

/-- `WhileStmt::setConditionVariable` (Stmt.cpp:934). -/
def WhileStmt.setConditionVariable (s : WhileStmt) (V : Option VarDecl) : WhileStmt :=
  match V with
  | none => { s with varSlot := none }
  | some v => { s with varSlot := some ⟨v, v.rangeBegin, v.rangeEnd⟩ }

/-- `WhileStmt::getConditionVariable` (Stmt.cpp:926). -/
def WhileStmt.getConditionVariable (s : WhileStmt) : Option VarDecl :=
  s.varSlot.map DeclStmt.singleDecl

/-- `ForStmt`: slots `INIT, CONDVAR, COND, INC, BODY` plus locations. -/
structure ForStmt where
  init : StmtP
  condVarSlot : Option DeclStmt
  cond : StmtP
  inc : StmtP
  body : StmtP
  forLoc : Nat
  lparenLoc : Nat
  rparenLoc : Nat
deriving DecidableEq, Repr

/-- `ForStmt::setConditionVariable` (Stmt.cpp:873). -/
def ForStmt.setConditionVariable (s : ForStmt) (V : Option VarDecl) : ForStmt :=
  match V with
  | none => { s with condVarSlot := none }
  | some v => { s with condVarSlot := some ⟨v, v.rangeBegin, v.rangeEnd⟩ }

/-- `ForStmt::getConditionVariable` (Stmt.cpp:865). -/
def ForStmt.getConditionVariable (s : ForStmt) : Option VarDecl :=
  s.condVarSlot.map DeclStmt.singleDecl

/-- `SwitchStmt`: slots `VAR, COND, BODY`, the first-case chain head and the
enum-coverage flag. -/
structure SwitchStmt where
  varSlot : Option DeclStmt
  cond : StmtP
  body : StmtP
  firstCase : StmtP
  allEnumCasesCovered : Bool
  switchLoc : Nat
deriving DecidableEq, Repr

/-- `SwitchStmt::setConditionVariable` (Stmt.cpp:900). -/
def SwitchStmt.setConditionVariable (s : SwitchStmt) (V : Option VarDecl) : SwitchStmt :=
  match V with
  | none => { s with varSlot := none }
  | some v => { s with varSlot := some ⟨v, v.rangeBegin, v.rangeEnd⟩ }

/-- `SwitchStmt::getConditionVariable` (Stmt.cpp:892). -/
def SwitchStmt.getConditionVariable (s : SwitchStmt) : Option VarDecl :=
  s.varSlot.map DeclStmt.singleDecl

/-! ## CXXTryStmt (call-stack-unwinding exception model) -/

/-- `CXXTryStmt`: try location, handler count, and the trailing array of
node pointers written by the constructor (`Stmts[0] = tryBlock`, then the
handlers). -/
structure CXXTryStmt where
  tryLoc : Nat
  numHandlers : Nat
  stmts : List StmtP
deriving DecidableEq, Repr

/-- `CXXTryStmt::CXXTryStmt` (Stmt.cpp:782): slot 0 of the trailing array is
the guarded block, followed by the handlers in order. -/
def CXXTryStmt.construct (tryLoc : Nat) (tryBlock : StmtP)
    (handlers : List StmtP) : CXXTryStmt :=
  { tryLoc := tryLoc
    numHandlers := handlers.length
    stmts := tryBlock :: handlers }

/-- `CXXTryStmt::Create` allocation-size formula (Stmt.cpp:766):
`sizeof(CXXTryStmt) + (handlers.size() + 1) * sizeof(Stmt)`.
Byte sizes are symbolic inputs; note the multiplier the source uses is the
size of the `Stmt` *object*, not of a `Stmt *` slot. -/
def CXXTryStmt.createSize (sizeofCXXTryStmt sizeofStmt numHandlers : Nat) : Nat :=
  sizeofCXXTryStmt + (numHandlers + 1) * sizeofStmt

/-- Modelled from the spec: the allocation size the spec requires for the
call-stack-unwinding try node — "header + (handler count + 1) node-pointer
slots" (§4.4 Model A); the slot width is `sizeof(Stmt *)`. -/
def cxxTrySpecAllocSize (sizeofCXXTryStmt sizeofStmtPtr numHandlers : Nat) : Nat :=
  sizeofCXXTryStmt + (numHandlers + 1) * sizeofStmtPtr

/-! ## ObjCAtTryStmt (message-passing exception model) -/

/-- `ObjCAtTryStmt`: `@try` location, catch count, finally flag, and the
trailing statement array laid out as guarded block, catches, then the
optional finally block. -/
structure ObjCAtTryStmt where
  atTryLoc : Nat
  numCatchStmts : Nat
  hasFinally : Bool
  stmts : List StmtRef
deriving DecidableEq, Repr

/-- `ObjCAtTryStmt::ObjCAtTryStmt` (Stmt.cpp:719): `Stmts[0]` is the guarded
block, `Stmts[1..N]` the catches, and `Stmts[N+1]` the finally block when
one is present (`HasFinally = atFinallyStmt != 0`). -/
def ObjCAtTryStmt.construct (atTryLoc : Nat) (atTryStmt : StmtRef)
    (catchStmts : List StmtRef) (atFinallyStmt : Option StmtRef) : ObjCAtTryStmt :=
  { atTryLoc := atTryLoc
    numCatchStmts := catchStmts.length
    hasFinally := atFinallyStmt.isSome
    stmts := atTryStmt :: catchStmts ++ atFinallyStmt.toList }

/-- `ObjCAtTryStmt::getTryBody` (header): slot 0 of the trailing array. -/
def ObjCAtTryStmt.getTryBody (s : ObjCAtTryStmt) : StmtRef :=
  s.stmts.getD 0 ⟨0, 0, 0⟩

/-- `ObjCAtTryStmt::getCatchStmt` (header): slot `I + 1`. -/
def ObjCAtTryStmt.getCatchStmt (s : ObjCAtTryStmt) (i : Nat) : StmtRef :=
  s.stmts.getD (i + 1) ⟨0, 0, 0⟩

/-- `ObjCAtTryStmt::getFinallyStmt` (header): slot `NumCatchStmts + 1`. -/
def ObjCAtTryStmt.getFinallyStmt (s : ObjCAtTryStmt) : StmtRef :=
  s.stmts.getD (s.numCatchStmts + 1) ⟨0, 0, 0⟩

/-- `ObjCAtTryStmt::getLocEnd` (Stmt.cpp:756): the finally block's end if
present, else the last catch's end if any catch exists, else the guarded
block's end. -/
def ObjCAtTryStmt.getLocEnd (s : ObjCAtTryStmt) : Nat :=
  if s.hasFinally then s.getFinallyStmt.locEnd
  else if s.numCatchStmts ≠ 0 then (s.getCatchStmt (s.numCatchStmts - 1)).locEnd
  else s.getTryBody.locEnd

/-! ## CapturedStmt (captured-region node) -/

/-- A capture descriptor: the captured-variable reference plus its mode.
Only identity matters for the layout claims. -/
structure CapturedStmtCapture where
  capturedVar : Nat
  byRef : Bool
deriving DecidableEq, Repr

/-- A possibly-null expression pointer (`Expr *`). -/
abbrev ExprP := Option Nat

/-- `CapturedStmt`: capture count, out-of-line declaration and record
references, the trailing statement slots (`NumCaptures` initializer
expressions followed by the captured statement), and the realigned
trailing capture-descriptor array. -/
structure CapturedStmt where
  numCaptures : Nat
  capturedDecl : Nat
  theRecordDecl : Nat
  regionKind : Nat
  storedStmts : List StmtP
  storedCaptures : List CapturedStmtCapture
deriving DecidableEq, Repr

/-- `CapturedStmt::CapturedStmt` (Stmt.cpp:1868): copies the `NumCaptures`
initialization expressions into the leading trailing slots, then the
captured statement, then the capture descriptors. -/
def CapturedStmt.construct (S : StmtRef) (Kind : Nat)
    (Captures : List CapturedStmtCapture) (CaptureInits : List StmtP)
    (CD RD : Nat) : CapturedStmt :=
  { numCaptures := Captures.length
    capturedDecl := CD
    theRecordDecl := RD
    regionKind := Kind
    storedStmts := CaptureInits.take Captures.length ++ [some S]
    storedCaptures := Captures }

/-- `CapturedStmt::Create` (Stmt.cpp:1898): asserts that the number of
initializer expressions matches the number of captures before constructing
(`none` models the assertion failure). -/
def CapturedStmt.Create (S : StmtRef) (Kind : Nat)
    (Captures : List CapturedStmtCapture) (CaptureInits : List StmtP)
    (CD RD : Nat) : Option CapturedStmt :=
  if CaptureInits.length = Captures.length then
    some (CapturedStmt.construct S Kind Captures CaptureInits CD RD)
  else none

/-- `CapturedStmt::children` (Stmt.cpp:1939): the half-open range of the
first `NumCaptures` trailing statement slots — the capture initializers
only, excluding the captured statement and the capture descriptors. -/
def CapturedStmt.childrenList (c : CapturedStmt) : List StmtP :=
  c.storedStmts.take c.numCaptures

/-! ## OpenMP clauses (trailing parallel arrays) -/

/-- `OMPFirstPrivateClause`: variable list plus two parallel trailing
arrays (pseudo-variables and initializers). `numVars` is the fixed-header
count the trailing segments are sized from. -/
structure OMPFirstPrivateClause where
  numVars : Nat
  vars : List ExprP
  pseudoVars : List ExprP
  inits : List ExprP
deriving DecidableEq, Repr

/-- `OMPClause::setVars` (header): copies the variable list into the first
trailing segment; the segment was preallocated for `numVars` entries, so a
mismatched length is a programmer error (`none`). -/
def OMPFirstPrivateClause.setVars (c : OMPFirstPrivateClause)
    (VL : List ExprP) : Option OMPFirstPrivateClause :=
  if VL.length = c.numVars then some { c with vars := VL } else none

/-- `OMPFirstPrivateClause::setPseudoVars` (Stmt.cpp:1054): asserts the
array has exactly `varlist_size()` entries before copying any data. -/
def OMPFirstPrivateClause.setPseudoVars (c : OMPFirstPrivateClause)
    (PseudoVars : List ExprP) : Option OMPFirstPrivateClause :=
  if PseudoVars.length = c.numVars then some { c with pseudoVars := PseudoVars }
  else none

/-- `OMPFirstPrivateClause::setInits` (Stmt.cpp:1061): asserts the array
has exactly `varlist_size()` entries before copying any data. -/
def OMPFirstPrivateClause.setInits (c : OMPFirstPrivateClause)
    (Inits : List ExprP) : Option OMPFirstPrivateClause :=
  if Inits.length = c.numVars then some { c with inits := Inits } else none

/-- `OMPFirstPrivateClause::Create` (Stmt.cpp:1068): allocates for
`3 * VL.size()` trailing expression slots, then populates the variable
list and the two parallel arrays through the asserting setters. -/
def OMPFirstPrivateClause.Create (VL PseudoVars Inits : List ExprP) :
    Option OMPFirstPrivateClause := do
  let c0 : OMPFirstPrivateClause :=
    { numVars := VL.length, vars := [], pseudoVars := [], inits := [] }
  let c1 ← c0.setVars VL
  let c2 ← c1.setPseudoVars PseudoVars
  c2.setInits Inits

/-- `OMPReductionClause`: variable list plus four parallel trailing arrays
(combiner-operator expressions, the two helper-parameter arrays, and the
default initializers). -/
structure OMPReductionClause where
  numVars : Nat
  vars : List ExprP
  opExprs : List ExprP
  helperParams1 : List ExprP
  helperParams2 : List ExprP
  defaultInits : List ExprP
deriving DecidableEq, Repr

/-- `OMPClause::setVars` for the reduction clause (header). -/
def OMPReductionClause.setVars (c : OMPReductionClause)
    (VL : List ExprP) : Option OMPReductionClause :=
  if VL.length = c.numVars then some { c with vars := VL } else none

/-- `OMPReductionClause::setOpExprs` (Stmt.cpp:1306): asserts the array has
exactly `numberOfVariables()` entries before copying. -/
def OMPReductionClause.setOpExprs (c : OMPReductionClause)
    (OpExprs : List ExprP) : Option OMPReductionClause :=
  if OpExprs.length = c.numVars then some { c with opExprs := OpExprs } else none

/-- `OMPReductionClause::setHelperParameters1st` (Stmt.cpp:1312). -/
def OMPReductionClause.setHelperParameters1st (c : OMPReductionClause)
    (HelperParams : List ExprP) : Option OMPReductionClause :=
  if HelperParams.length = c.numVars then
    some { c with helperParams1 := HelperParams }
  else none

/-- `OMPReductionClause::setHelperParameters2nd` (Stmt.cpp:1318). -/
def OMPReductionClause.setHelperParameters2nd (c : OMPReductionClause)
    (HelperParams : List ExprP) : Option OMPReductionClause :=
  if HelperParams.length = c.numVars then
    some { c with helperParams2 := HelperParams }
  else none

/-- `OMPReductionClause::setDefaultInits` (Stmt.cpp:1325): asserts the
array has exactly `varlist_size()` entries before copying. -/
def OMPReductionClause.setDefaultInits (c : OMPReductionClause)
    (DefaultInits : List ExprP) : Option OMPReductionClause :=
  if DefaultInits.length = c.numVars then
    some { c with defaultInits := DefaultInits }
  else none

/-- `OMPReductionClause::Create` (Stmt.cpp:1271): asserts
`VL.size() == OpExprs.size()` up front, allocates `5 * VL.size()` trailing
expression slots, then populates all five segments through the asserting
setters, in the order their offsets were computed. -/
def OMPReductionClause.Create (VL OpExprs HelperParams1 HelperParams2
    DefaultInits : List ExprP) : Option OMPReductionClause := do
  if VL.length = OpExprs.length then
    let c0 : OMPReductionClause :=
      { numVars := VL.length, vars := [], opExprs := [], helperParams1 := []
        helperParams2 := [], defaultInits := [] }
    let c1 ← c0.setVars VL
    let c2 ← c1.setOpExprs OpExprs
    let c3 ← c2.setHelperParameters1st HelperParams1
    let c4 ← c3.setHelperParameters2nd HelperParams2
    c4.setDefaultInits DefaultInits
  else none

/-! ## GCC-dialect inline assembly: string decomposition -/

/-- The nul character used for "no modifier". -/
def nulChar : Char := Char.ofNat 0

/-- The open-brace character (written numerically). -/
def lbraceChar : Char := Char.ofNat 123

/-- The close-brace character (written numerically). -/
def rbraceChar : Char := Char.ofNat 125

/-- `clang::isLetter` (CharInfo): ASCII letter. -/
def isAsciiLetterChar (c : Char) : Bool :=
  (97 ≤ c.toNat && c.toNat ≤ 122) || (65 ≤ c.toNat && c.toNat ≤ 90)

/-- `clang::isDigit` (CharInfo): ASCII digit. -/
def isAsciiDigitChar (c : Char) : Bool :=
  48 ≤ c.toNat && c.toNat ≤ 57

/-- `GCCAsmStmt::AsmStringPiece`: a literal substring or an operand
reference carrying the operand index and the optional modifier character
(`nulChar` when absent). -/
inductive AsmStringPiece where
  | literal (s : String)
  | operand (no : Nat) (modifier : Char)
deriving DecidableEq, Repr

/-- The diagnostic kinds `AnalyzeAsmString` can return (the
`diag::err_asm_*` codes). -/
inductive AsmDiag where
  | err_asm_invalid_escape
  | err_asm_invalid_operand_number
  | err_asm_unterminated_symbolic_operand_name
  | err_asm_empty_symbolic_operand_name
  | err_asm_unknown_symbolic_operand_name
deriving DecidableEq, Repr

/-- `GCCAsmStmt`: the register-constraint dialect assembly statement. The
operand-name and constraint arrays are split at `NumOutputs` into the
output and input halves; `asmChars` is the template string. -/
structure GCCAsmStmt where
  isSimple : Bool
  isVolatile : Bool
  asmChars : List Char
  outputNames : List String
  outputConstraints : List String
  inputNames : List String
  inputConstraints : List String
  exprs : List StmtP
  clobbers : List String
  asmLoc : Nat
  rparenLoc : Nat
deriving DecidableEq, Repr

/-- `GCCAsmStmt::getOutputConstraint` (Stmt.cpp:372) — constraint string of
the i-th output operand. -/
def GCCAsmStmt.getOutputConstraint (st : GCCAsmStmt) (i : Nat) : String :=
  st.outputConstraints.getD i ""

/-- Modelled from the spec: `AsmStmt::isOutputPlusConstraint` lives in the
header (not under `src/`); per the spec a "+"-constrained output is one
whose constraint string begins with the `+` character. -/
def GCCAsmStmt.isOutputPlusConstraint (st : GCCAsmStmt) (i : Nat) : Bool :=
  match (st.getOutputConstraint i).data with
  | c :: _ => c = '+'
  | [] => false

/-- `AsmStmt::getNumPlusOperands` (Stmt.cpp:353): the number of output
operands with a "+" constraint. -/
def GCCAsmStmt.getNumPlusOperands (st : GCCAsmStmt) : Nat :=
  (List.range st.outputNames.length).countP
    (fun i => st.isOutputPlusConstraint i)

/-- `GCCAsmStmt::getNamedOperand` (Stmt.cpp:423): linear scan of the output
operand names, then of the input operand names, first match winning; an
input match is reported at `getNumOutputs() + NumPlusOperands + i`, where
the local `NumPlusOperands` counter is initialized to zero and never
incremented. `none` models the `-1` not-found result. -/
def GCCAsmStmt.getNamedOperand (st : GCCAsmStmt) (SymbolicName : String) :
    Option Nat :=
  let numPlusOperands := 0
  match st.outputNames.findIdx? (fun n => n = SymbolicName) with
  | some i => some i
  | none =>
    match st.inputNames.findIdx? (fun n => n = SymbolicName) with
    | some i => some (st.outputNames.length + numPlusOperands + i)
    | none => none

/-- The `$`-doubling copy performed for "simple" inline asm
(Stmt.cpp:452-465). -/
def escapeSimpleDollars : List Char → List Char
  | [] => []
  | c :: rest =>
    if c = '$' then '$' :: '$' :: escapeSimpleDollars rest
    else c :: escapeSimpleDollars rest

/-- Outcome of handling one operand-reference escape: a diagnostic with
its byte offset, or an operand piece plus the remaining characters and the
next scan offset. -/
inductive EscResult where
  | fail (d : AsmDiag) (off : Nat)
  | piece (no : Nat) (modifier : Char) (next : List Char) (nextPos : Nat)
deriving DecidableEq, Repr

/-- The operand-reference part of the escape handling
(Stmt.cpp:532-577): `ec` is the character after the `%` (and after the
optional modifier letter), `restAE` the characters following `ec`,
`posEc` the byte offset of `ec`, and `modifier` the captured modifier
(`nulChar` when absent). A digit run is accumulated as a 32-bit unsigned
decimal and checked against outputs + "+"-outputs + inputs, reporting the
invalid-operand-number diagnostic at the offset one before the
past-the-run scan pointer; `[` scans to the first `]` and resolves the
name via `getNamedOperand`; anything else is an invalid escape. -/
def handleOperandRef (st : GCCAsmStmt) (modifier ec : Char)
    (restAE : List Char) (posEc : Nat) : EscResult :=
  if isAsciiDigitChar ec then
    let runTail := restAE.takeWhile isAsciiDigitChar
    let N := (ec :: runTail).foldl
      (fun n ch => (n * 10 + (ch.toNat - 48)) % 4294967296) 0
    let afterRun := restAE.dropWhile isAsciiDigitChar
    let posAfter := posEc + 1 + runTail.length
    let numOperands := st.outputNames.length + st.getNumPlusOperands +
      st.inputNames.length
    if numOperands ≤ N then
      .fail .err_asm_invalid_operand_number (posAfter - 1)
    else .piece N modifier afterRun posAfter
  else if ec = '[' then
    match restAE.findIdx? (fun ch => ch = ']') with
    | none => .fail .err_asm_unterminated_symbolic_operand_name posEc
    | some idx =>
      if idx = 0 then .fail .err_asm_empty_symbolic_operand_name posEc
      else
        match st.getNamedOperand (String.mk (restAE.take idx)) with
        | none => .fail .err_asm_unknown_symbolic_operand_name (posEc + 1)
        | some n => .piece n modifier (restAE.drop (idx + 1))
            (posEc + 1 + (idx + 1))
  else .fail .err_asm_invalid_escape posEc

/-- The non-simple scanning loop of `GCCAsmStmt::AnalyzeAsmString`
(Stmt.cpp:474-578). `str` is the unscanned remainder, `pos` its offset
from the start of the template, `cur` the literal piece being accumulated,
`pieces` the output so far. Errors are returned as a
`(diagnostic, byte offset)` pair and stop the scan. The `fuel` argument
makes the recursion structural; every step consumes at least one
character, so the entry point's `length + 1` fuel is never exhausted. -/
def analyzeLoop (st : GCCAsmStmt) (hasVariants : Bool) :
    Nat → List Char → Nat → String → List AsmStringPiece →
    Except (AsmDiag × Nat) (List AsmStringPiece)
  | 0, _, _, _, pieces => .ok pieces
  | fuel + 1, str, pos, cur, pieces =>
    match str with
    | [] => .ok (if cur.isEmpty then pieces else pieces ++ [.literal cur])
    | c :: rest =>
      if c = '$' then
        analyzeLoop st hasVariants fuel rest (pos + 1) (cur ++ "$$") pieces
      else if c = lbraceChar then
        analyzeLoop st hasVariants fuel rest (pos + 1)
          (cur ++ (if hasVariants then "$(" else "\x7b")) pieces
      else if c = '|' then
        analyzeLoop st hasVariants fuel rest (pos + 1)
          (cur ++ (if hasVariants then "$|" else "|")) pieces
      else if c = rbraceChar then
        analyzeLoop st hasVariants fuel rest (pos + 1)
          (cur ++ (if hasVariants then "$)" else "\x7d")) pieces
      else if c = '%' then
        match rest with
        | [] =>
          -- % at end of string: no escape (DiagOffs = offset of the '%').
          .error (.err_asm_invalid_escape, pos)
        | e :: rest2 =>
          if e = '%' then
            analyzeLoop st hasVariants fuel rest2 (pos + 2) (cur ++ "%") pieces
          else if e = '=' then
            analyzeLoop st hasVariants fuel rest2 (pos + 2)
              (cur ++ "$\x7b:uid\x7d") pieces
          else
            -- Operand reference: flush the accumulated literal first.
            let pieces1 := if cur.isEmpty then pieces
                           else pieces ++ [.literal cur]
            if isAsciiLetterChar e then
              match rest2 with
              | [] =>
                -- Premature end after the modifier letter.
                .error (.err_asm_invalid_escape, pos + 1)
              | e2 :: rest3 =>
                match handleOperandRef st e e2 rest3 (pos + 2) with
                | .fail d o => .error (d, o)
                | .piece n m next np =>
                  analyzeLoop st hasVariants fuel next np ""
                    (pieces1 ++ [.operand n m])
            else
              match handleOperandRef st nulChar e rest2 (pos + 1) with
              | .fail d o => .error (d, o)
              | .piece n m next np =>
                analyzeLoop st hasVariants fuel next np ""
                  (pieces1 ++ [.operand n m])
      else
        analyzeLoop st hasVariants fuel rest (pos + 1) (cur.push c) pieces

/-- `GCCAsmStmt::AnalyzeAsmString` (Stmt.cpp:443): for "simple" asm, copy
the template doubling every `$`; otherwise run the scanning loop.
`hasVariants` is `!C.getTargetInfo().hasNoAsmVariants()`. -/
def GCCAsmStmt.AnalyzeAsmString (st : GCCAsmStmt) (hasVariants : Bool) :
    Except (AsmDiag × Nat) (List AsmStringPiece) :=
  if st.isSimple then
    .ok [.literal (String.mk (escapeSimpleDollars st.asmChars))]
  else
    analyzeLoop st hasVariants (st.asmChars.length + 1) st.asmChars 0 "" []

/-! ## Kind registry and generic dispatch -/

/-- The statement kind tags of the embedded fragment of the closed node
registry, plus the sentinel `NoStmtClass` ("statement without class"). -/
inductive StmtClass where
  | NoStmtClass
  | CompoundStmtClass
  | IfStmtClass
  | WhileStmtClass
  | ForStmtClass
  | SwitchStmtClass
  | CXXTryStmtClass
  | ObjCAtTryStmtClass
  | CapturedStmtClass
  | GCCAsmStmtClass
deriving DecidableEq, Repr

/-- The concrete per-kind state of a node (the derived-class part). -/
inductive StmtPayload where
  | compound (c : CompoundStmt)
  | ifS (s : IfStmt)
  | whileS (s : WhileStmt)
  | forS (s : ForStmt)
  | switchS (s : SwitchStmt)
  | cxxTry (s : CXXTryStmt)
  | objcAtTry (s : ObjCAtTryStmt)
  | captured (s : CapturedStmt)
  | gccAsm (s : GCCAsmStmt)
deriving DecidableEq, Repr

/-- The concrete kind tag each constructor stores into the base-class
`StmtBits.sClass` field (e.g. `Stmt(CompoundStmtClass)`, Stmt.cpp:257). -/
def StmtPayload.classOf : StmtPayload → StmtClass
  | .compound _ => .CompoundStmtClass
  | .ifS _ => .IfStmtClass
  | .whileS _ => .WhileStmtClass
  | .forS _ => .ForStmtClass
  | .switchS _ => .SwitchStmtClass
  | .cxxTry _ => .CXXTryStmtClass
  | .objcAtTry _ => .ObjCAtTryStmtClass
  | .captured _ => .CapturedStmtClass
  | .gccAsm _ => .GCCAsmStmtClass

/-- A raw statement node: the kind-tag field as stored, plus the concrete
state. A validly constructed node always has `sClass = payload.classOf`. -/
structure RawStmt where
  sClass : StmtClass
  payload : StmtPayload
deriving DecidableEq, Repr

/-- A node is validly constructed when its stored kind tag is the concrete
tag of its state: every constructor establishes this and the tag is never
reassigned. -/
def RawStmt.WellFormed (s : RawStmt) : Prop := s.sClass = s.payload.classOf

instance (s : RawStmt) : Decidable s.WellFormed := by
  unfold RawStmt.WellFormed; infer_instance

/-- The `static_cast<CompoundStmt*>` a dispatch arm performs; a cast to the
wrong concrete type is undefined (`none`). -/
def StmtPayload.asCompound : StmtPayload → Option CompoundStmt
  | .compound c => some c
  | _ => none

/-- The `static_cast<IfStmt*>` of a dispatch arm. -/
def StmtPayload.asIf : StmtPayload → Option IfStmt
  | .ifS s => some s
  | _ => none

/-- The `static_cast<WhileStmt*>` of a dispatch arm. -/
def StmtPayload.asWhile : StmtPayload → Option WhileStmt
  | .whileS s => some s
  | _ => none

/-- The `static_cast<ForStmt*>` of a dispatch arm. -/
def StmtPayload.asFor : StmtPayload → Option ForStmt
  | .forS s => some s
  | _ => none

/-- The `static_cast<SwitchStmt*>` of a dispatch arm. -/
def StmtPayload.asSwitch : StmtPayload → Option SwitchStmt
  | .switchS s => some s
  | _ => none

/-- The `static_cast<CXXTryStmt*>` of a dispatch arm. -/
def StmtPayload.asCXXTry : StmtPayload → Option CXXTryStmt
  | .cxxTry s => some s
  | _ => none

/-- The `static_cast<ObjCAtTryStmt*>` of a dispatch arm. -/
def StmtPayload.asObjCAtTry : StmtPayload → Option ObjCAtTryStmt
  | .objcAtTry s => some s
  | _ => none

/-- The `static_cast<CapturedStmt*>` of a dispatch arm. -/
def StmtPayload.asCaptured : StmtPayload → Option CapturedStmt
  | .captured s => some s
  | _ => none

/-- The `static_cast<GCCAsmStmt*>` of a dispatch arm. -/
def StmtPayload.asGCCAsm : StmtPayload → Option GCCAsmStmt
  | .gccAsm s => some s
  | _ => none

/-- `IfStmt::children` (header): the four sub-expression slots. -/
def IfStmt.childrenList (s : IfStmt) : List StmtP :=
  [s.varSlot.map DeclStmt.toRef, s.cond, s.thenB, s.elseB]

/-- `WhileStmt::children` (header). -/
def WhileStmt.childrenList (s : WhileStmt) : List StmtP :=
  [s.varSlot.map DeclStmt.toRef, s.cond, s.body]

/-- `ForStmt::children` (header). -/
def ForStmt.childrenList (s : ForStmt) : List StmtP :=
  [s.init, s.condVarSlot.map DeclStmt.toRef, s.cond, s.inc, s.body]

/-- `SwitchStmt::children` (header). -/
def SwitchStmt.childrenList (s : SwitchStmt) : List StmtP :=
  [s.varSlot.map DeclStmt.toRef, s.cond, s.body]

/-- `CXXTryStmt::children` (header): guarded block then each handler. -/
def CXXTryStmt.childrenList (s : CXXTryStmt) : List StmtP :=
  s.stmts.take (s.numHandlers + 1)

/-- `ObjCAtTryStmt::children` (header): the whole trailing statement
array. -/
def ObjCAtTryStmt.childrenList (s : ObjCAtTryStmt) : List StmtP :=
  s.stmts.map some

/-- `GCCAsmStmt::children` (header): the shared expression array (outputs
then inputs). -/
def GCCAsmStmt.childrenList (s : GCCAsmStmt) : List StmtP :=
  s.exprs

/-- A source range: the half-open `[begin, end]` location pair. -/
structure SourceRangeM where
  rBegin : Nat
  rEnd : Nat
deriving DecidableEq, Repr

/-- `IfStmt::getLocEnd` (header): the else branch's end when present, else
the then branch's end. -/
def IfStmt.getLocEnd (s : IfStmt) : Nat :=
  match s.elseB with
  | some e => e.locEnd
  | none => s.thenB.endD

/-- Per-kind source range of the embedded kinds: either the custom
`getSourceRange` of the class, or the default
`[getLocStart(), getLocEnd()]` pair chosen by the compile-time trait
(Stmt.cpp:197-216). -/
def StmtPayload.sourceRangeOf : StmtPayload → SourceRangeM
  | .compound c => ⟨c.lbracLoc, c.rbracLoc⟩
  | .ifS s => ⟨s.ifLoc, s.getLocEnd⟩
  | .whileS s => ⟨s.whileLoc, s.body.endD⟩
  | .forS s => ⟨s.forLoc, s.body.endD⟩
  | .switchS s => ⟨s.switchLoc, s.body.endD⟩
  | .cxxTry s => ⟨s.tryLoc, (s.stmts.getD s.numHandlers none).endD⟩
  | .objcAtTry s => ⟨s.atTryLoc, s.getLocEnd⟩
  | .captured s => ⟨(s.storedStmts.getD s.numCaptures none).map StmtRef.locStart |>.getD 0,
                    (s.storedStmts.getD s.numCaptures none).endD⟩
  | .gccAsm s => ⟨s.asmLoc, s.rparenLoc⟩

/-- `Stmt::children` (Stmt.cpp:181): a single switch over the stored kind
tag; the arm for a concrete kind casts to that kind and delegates;
reaching `NoStmtClass` is `llvm_unreachable` ("statement without class"),
modelled as `none`. -/
def Stmt.childrenDispatch (s : RawStmt) : Option (List StmtP) :=
  match s.sClass with
  | .NoStmtClass => none
  | .CompoundStmtClass => s.payload.asCompound.map CompoundStmt.childrenList
  | .IfStmtClass => s.payload.asIf.map IfStmt.childrenList
  | .WhileStmtClass => s.payload.asWhile.map WhileStmt.childrenList
  | .ForStmtClass => s.payload.asFor.map ForStmt.childrenList
  | .SwitchStmtClass => s.payload.asSwitch.map SwitchStmt.childrenList
  | .CXXTryStmtClass => s.payload.asCXXTry.map CXXTryStmt.childrenList
  | .ObjCAtTryStmtClass => s.payload.asObjCAtTry.map ObjCAtTryStmt.childrenList
  | .CapturedStmtClass => s.payload.asCaptured.map CapturedStmt.childrenList
  | .GCCAsmStmtClass => s.payload.asGCCAsm.map GCCAsmStmt.childrenList

/-- `Stmt::getSourceRange` (Stmt.cpp:218): the same total switch; each arm
resolves to the custom or default range implementation of its kind;
`NoStmtClass` is `llvm_unreachable`. -/
def Stmt.getSourceRangeDispatch (s : RawStmt) : Option SourceRangeM :=
  match s.sClass with
  | .NoStmtClass => none
  | .CompoundStmtClass => s.payload.asCompound.map (fun c => StmtPayload.sourceRangeOf (.compound c))
  | .IfStmtClass => s.payload.asIf.map (fun c => StmtPayload.sourceRangeOf (.ifS c))
  | .WhileStmtClass => s.payload.asWhile.map (fun c => StmtPayload.sourceRangeOf (.whileS c))
  | .ForStmtClass => s.payload.asFor.map (fun c => StmtPayload.sourceRangeOf (.forS c))
  | .SwitchStmtClass => s.payload.asSwitch.map (fun c => StmtPayload.sourceRangeOf (.switchS c))
  | .CXXTryStmtClass => s.payload.asCXXTry.map (fun c => StmtPayload.sourceRangeOf (.cxxTry c))
  | .ObjCAtTryStmtClass => s.payload.asObjCAtTry.map (fun c => StmtPayload.sourceRangeOf (.objcAtTry c))
  | .CapturedStmtClass => s.payload.asCaptured.map (fun c => StmtPayload.sourceRangeOf (.captured c))
  | .GCCAsmStmtClass => s.payload.asGCCAsm.map (fun c => StmtPayload.sourceRangeOf (.gccAsm c))

/-- The lazily-built kind-name table (Stmt.cpp:30-50): the generated
initializer stores a display name for every concrete, non-abstract kind;
the sentinel entry is never populated (its name stays null, `none`). -/
def StmtClassInfoName : StmtClass → Option String
  | .NoStmtClass => none
  | .CompoundStmtClass => some "CompoundStmt"
  | .IfStmtClass => some "IfStmt"
  | .WhileStmtClass => some "WhileStmt"
  | .ForStmtClass => some "ForStmt"
  | .SwitchStmtClass => some "SwitchStmt"
  | .CXXTryStmtClass => some "CXXTryStmt"
  | .ObjCAtTryStmtClass => some "ObjCAtTryStmt"
  | .CapturedStmtClass => some "CapturedStmt"
  | .GCCAsmStmtClass => some "GCCAsmStmt"

/-- `Stmt::getStmtClassName` (Stmt.cpp:57): reads the table entry of the
stored kind tag. -/
def Stmt.getStmtClassNameDispatch (s : RawStmt) : Option String :=
  StmtClassInfoName s.sClass

/-! ## Theorems -/

/-- **C6**: constructing a CompoundBlock from any sequence `S` and then
enumerating its children yields a sequence equal to `S` in order; for the
empty sequence the backing array is null (not a zero-length allocation)
and the children sequence is empty, not a one-element sequence containing
a null. -/
theorem c6_compound_roundtrip (S : List StmtP) (LB RB : Nat) :
    (CompoundStmt.construct S LB RB).childrenList = S ∧
    (CompoundStmt.construct [] LB RB).body = none ∧
    (CompoundStmt.construct [] LB RB).childrenList = [] := by
  refine ⟨?_, rfl, rfl⟩
  cases S with
  | nil => rfl
  | cons a t =>
    simp [CompoundStmt.construct, CompoundStmt.childrenList]

/-- **C7**: for each of the four condition-carrying node kinds, setting
the condition variable to a declaration `V` wraps it in the internal
single-declaration wrapper spanning `V`'s own source range and getting it
back returns `V`; setting it to nothing clears the slot, after which the
getter returns nothing. -/
theorem c7_condition_variable_roundtrip :
    (∀ (s : IfStmt) (V : VarDecl),
      (s.setConditionVariable (some V)).getConditionVariable = some V ∧
      (s.setConditionVariable (some V)).varSlot =
        some ⟨V, V.rangeBegin, V.rangeEnd⟩ ∧
      (s.setConditionVariable none).getConditionVariable = none) ∧
    (∀ (s : WhileStmt) (V : VarDecl),
      (s.setConditionVariable (some V)).getConditionVariable = some V ∧
      (s.setConditionVariable (some V)).varSlot =
        some ⟨V, V.rangeBegin, V.rangeEnd⟩ ∧
      (s.setConditionVariable none).getConditionVariable = none) ∧
    (∀ (s : ForStmt) (V : VarDecl),
      (s.setConditionVariable (some V)).getConditionVariable = some V ∧
      (s.setConditionVariable (some V)).condVarSlot =
        some ⟨V, V.rangeBegin, V.rangeEnd⟩ ∧
      (s.setConditionVariable none).getConditionVariable = none) ∧
    (∀ (s : SwitchStmt) (V : VarDecl),
      (s.setConditionVariable (some V)).getConditionVariable = some V ∧
      (s.setConditionVariable (some V)).varSlot =
        some ⟨V, V.rangeBegin, V.rangeEnd⟩ ∧
      (s.setConditionVariable none).getConditionVariable = none) := by
  exact ⟨fun s V => ⟨rfl, rfl, rfl⟩, fun s V => ⟨rfl, rfl, rfl⟩,
         fun s V => ⟨rfl, rfl, rfl⟩, fun s V => ⟨rfl, rfl, rfl⟩⟩

/-- **C3** (code bug): `CXXTryStmt::Create` computes the trailing-array
bytes as `(H + 1) * sizeof(Stmt)` — the node-object size — while both the
spec and the constructor (which stores `Stmt *` entries: guarded block at
slot 0, then the handlers) require `(H + 1)` node-pointer slots. With the
LP64 sizes `sizeof(Stmt) = 4`, `sizeof(Stmt *) = 8` and header size 12,
one handler gives 20 allocated bytes against the 28 required; the layout
itself (slot 0 = guarded block, handlers in order) is as claimed. -/
theorem c3_cxxtry_size_mismatch :
    CXXTryStmt.createSize 12 4 1 = 20 ∧
    cxxTrySpecAllocSize 12 8 1 = 28 ∧
    CXXTryStmt.createSize 12 4 1 ≠ cxxTrySpecAllocSize 12 8 1 ∧
    (CXXTryStmt.construct 7 (some ⟨1, 0, 5⟩) [some ⟨2, 6, 9⟩]).stmts =
      [some ⟨1, 0, 5⟩, some ⟨2, 6, 9⟩] := by
  refine ⟨rfl, rfl, by decide, rfl⟩

/-- **C4**: the end location of a message-passing-model try node is the
finally block's end when present, else the last catch's end when at least
one catch exists, else the guarded block's end. -/
theorem c4_objc_try_locEnd (atLoc : Nat) (t : StmtRef) (cs : List StmtRef)
    (f : Option StmtRef) :
    (∀ fr, f = some fr →
      (ObjCAtTryStmt.construct atLoc t cs f).getLocEnd = fr.locEnd) ∧
    (f = none → ∀ (cs' : List StmtRef) (c' : StmtRef), cs = cs' ++ [c'] →
      (ObjCAtTryStmt.construct atLoc t cs f).getLocEnd = c'.locEnd) ∧
    (f = none → cs = [] →
      (ObjCAtTryStmt.construct atLoc t cs f).getLocEnd = t.locEnd) := by
  refine ⟨?_, ?_, ?_⟩
  · rintro fr rfl
    simp [ObjCAtTryStmt.construct, ObjCAtTryStmt.getLocEnd,
      ObjCAtTryStmt.getFinallyStmt, Option.toList,
      List.getD_eq_getElem?_getD, List.getElem?_concat_length]
  · rintro rfl cs' c' rfl
    simp only [ObjCAtTryStmt.construct, ObjCAtTryStmt.getLocEnd,
      ObjCAtTryStmt.getCatchStmt, Option.toList, Option.isSome_none,
      List.append_nil, List.length_append, List.length_singleton]
    rw [if_neg (by simp)]
    rw [if_pos (by simp)]
    have h1 : cs'.length + 1 - 1 + 1 = cs'.length + 1 := by omega
    rw [h1]
    simp [List.getD_eq_getElem?_getD]
  · rintro rfl rfl
    rfl

/-- **C10**: for a validly constructed captured-region node with `N`
captures, the generic children enumeration yields exactly the `N`
capture-initializer expressions in order; the captured statement sits in
the trailing statement slot after them (slot `N`), excluded from the
children, as are the capture descriptors. -/
theorem c10_captured_children (S : StmtRef) (Kind : Nat)
    (Captures : List CapturedStmtCapture) (CaptureInits : List StmtP)
    (CD RD : Nat) (c : CapturedStmt)
    (h : CapturedStmt.Create S Kind Captures CaptureInits CD RD = some c) :
    c.childrenList = CaptureInits ∧
    c.storedStmts.getD c.numCaptures none = some S ∧
    c.storedCaptures = Captures := by
  unfold CapturedStmt.Create at h
  split at h
  case isTrue hlen =>
    injection h with h'
    subst h'
    unfold CapturedStmt.construct CapturedStmt.childrenList
    rw [← hlen, List.take_length]
    refine ⟨List.take_left' rfl, ?_, rfl⟩
    simp [List.getD_eq_getElem?_getD, ← hlen, List.getElem?_concat_length]
  case isFalse => exact absurd h (by simp)

/-- Witness for `c4_objc_try_locEnd`: guarded block ending at 10, one
catch ending at 20, no finally — the reported end location is 20. -/
theorem c4_objc_try_locEnd_witness :
    (ObjCAtTryStmt.construct 0 ⟨1, 0, 10⟩ [⟨2, 11, 20⟩] none).getLocEnd = 20 :=
  (c4_objc_try_locEnd 0 ⟨1, 0, 10⟩ [⟨2, 11, 20⟩] none).2.1 rfl [] ⟨2, 11, 20⟩ rfl

/-- Witness for `c10_captured_children`: two captures with two
initializers. -/
theorem c10_captured_children_witness :
    ∃ c, CapturedStmt.Create ⟨9, 0, 3⟩ 1 [⟨4, true⟩, ⟨5, false⟩]
        [some ⟨6, 0, 1⟩, none] 7 8 = some c ∧
      c.childrenList = [some ⟨6, 0, 1⟩, none] ∧
      c.storedStmts.getD c.numCaptures none = some ⟨9, 0, 3⟩ ∧
      c.storedCaptures = [⟨4, true⟩, ⟨5, false⟩] := by
  refine ⟨_, rfl, c10_captured_children ⟨9, 0, 3⟩ 1 _ _ 7 8 _ rfl⟩

/-- **C1**: for every validly constructed node (one whose stored kind tag
is the concrete tag its constructor set), the three generic dispatch
operations — children enumeration, source-range computation, and
class-name lookup — all return a defined result; dispatching on the
sentinel `NoStmtClass` tag is an internal-consistency failure
(`llvm_unreachable` for children/range, the never-populated null name
entry for the lookup), never an ordinary value. -/
theorem c1_dispatch_total (s : RawStmt) (h : s.WellFormed) :
    (Stmt.childrenDispatch s).isSome = true ∧
    (Stmt.getSourceRangeDispatch s).isSome = true ∧
    (Stmt.getStmtClassNameDispatch s).isSome = true ∧
    (∀ p : StmtPayload,
      Stmt.childrenDispatch ⟨StmtClass.NoStmtClass, p⟩ = none ∧
      Stmt.getSourceRangeDispatch ⟨StmtClass.NoStmtClass, p⟩ = none ∧
      Stmt.getStmtClassNameDispatch ⟨StmtClass.NoStmtClass, p⟩ = none) := by
  obtain ⟨cl, p⟩ := s
  rw [RawStmt.WellFormed] at h
  simp only at h
  subst h
  refine ⟨?_, ?_, ?_, fun q => ⟨rfl, rfl, rfl⟩⟩ <;>
    cases p <;> rfl

/-- Witness for `c1_dispatch_total`: a validly constructed empty compound
block. -/
theorem c1_dispatch_total_witness :
    (Stmt.childrenDispatch
      ⟨StmtClass.CompoundStmtClass,
       StmtPayload.compound (CompoundStmt.construct [] 0 1)⟩).isSome = true ∧
    (Stmt.getSourceRangeDispatch
      ⟨StmtClass.CompoundStmtClass,
       StmtPayload.compound (CompoundStmt.construct [] 0 1)⟩).isSome = true ∧
    (Stmt.getStmtClassNameDispatch
      ⟨StmtClass.CompoundStmtClass,
       StmtPayload.compound (CompoundStmt.construct [] 0 1)⟩).isSome = true ∧
    (∀ p : StmtPayload,
      Stmt.childrenDispatch ⟨StmtClass.NoStmtClass, p⟩ = none ∧
      Stmt.getSourceRangeDispatch ⟨StmtClass.NoStmtClass, p⟩ = none ∧
      Stmt.getStmtClassNameDispatch ⟨StmtClass.NoStmtClass, p⟩ = none) :=
  c1_dispatch_total
    ⟨StmtClass.CompoundStmtClass,
     StmtPayload.compound (CompoundStmt.construct [] 0 1)⟩ rfl

/-- **C8**: every trailing parallel array of a clause has exactly the
length of the variable list (`numVars`); each populating setter rejects a
mismatched length by assertion (modelled `none`) before copying any data,
and a successful `Create` therefore yields arrays all of length `N`. -/
theorem c8_clause_parallel_arrays :
    (∀ (VL PV IN : List ExprP) (c : OMPFirstPrivateClause),
      OMPFirstPrivateClause.Create VL PV IN = some c →
      c.numVars = VL.length ∧ c.vars.length = c.numVars ∧
      c.pseudoVars.length = c.numVars ∧ c.inits.length = c.numVars) ∧
    (∀ (c : OMPFirstPrivateClause) (a : List ExprP), a.length ≠ c.numVars →
      c.setPseudoVars a = none ∧ c.setInits a = none) ∧
    (∀ (VL OE H1 H2 DI : List ExprP) (c : OMPReductionClause),
      OMPReductionClause.Create VL OE H1 H2 DI = some c →
      c.numVars = VL.length ∧ c.vars.length = c.numVars ∧
      c.opExprs.length = c.numVars ∧ c.helperParams1.length = c.numVars ∧
      c.helperParams2.length = c.numVars ∧ c.defaultInits.length = c.numVars) ∧
    (∀ (c : OMPReductionClause) (a : List ExprP), a.length ≠ c.numVars →
      c.setOpExprs a = none ∧ c.setHelperParameters1st a = none ∧
      c.setHelperParameters2nd a = none ∧ c.setDefaultInits a = none) := by
  refine ⟨?_, ?_, ?_, ?_⟩
  · intro VL PV IN c h
    by_cases hpv : PV.length = VL.length
    · by_cases hin : IN.length = VL.length
      · simp [OMPFirstPrivateClause.Create, OMPFirstPrivateClause.setVars,
          OMPFirstPrivateClause.setPseudoVars, OMPFirstPrivateClause.setInits,
          hpv, hin] at h
        subst h
        simp [hpv, hin]
      · exfalso
        simp [OMPFirstPrivateClause.Create, OMPFirstPrivateClause.setVars,
          OMPFirstPrivateClause.setPseudoVars, OMPFirstPrivateClause.setInits,
          hpv, hin] at h
    · exfalso
      simp [OMPFirstPrivateClause.Create, OMPFirstPrivateClause.setVars,
        OMPFirstPrivateClause.setPseudoVars, OMPFirstPrivateClause.setInits,
        hpv] at h
  · intro c a ha
    constructor
    · rw [OMPFirstPrivateClause.setPseudoVars, if_neg ha]
    · rw [OMPFirstPrivateClause.setInits, if_neg ha]
  · intro VL OE H1 H2 DI c h
    by_cases hoe : VL.length = OE.length
    case neg =>
      exfalso
      simp [OMPReductionClause.Create, hoe] at h
    case pos =>
    by_cases h1 : H1.length = OE.length
    case neg =>
      exfalso
      simp [OMPReductionClause.Create, OMPReductionClause.setVars,
        OMPReductionClause.setOpExprs, OMPReductionClause.setHelperParameters1st,
        hoe, h1] at h
    case pos =>
    by_cases h2 : H2.length = OE.length
    case neg =>
      exfalso
      simp [OMPReductionClause.Create, OMPReductionClause.setVars,
        OMPReductionClause.setOpExprs, OMPReductionClause.setHelperParameters1st,
        OMPReductionClause.setHelperParameters2nd, hoe, h1, h2] at h
    case pos =>
    by_cases hdi : DI.length = OE.length
    case neg =>
      exfalso
      simp [OMPReductionClause.Create, OMPReductionClause.setVars,
        OMPReductionClause.setOpExprs, OMPReductionClause.setHelperParameters1st,
        OMPReductionClause.setHelperParameters2nd,
        OMPReductionClause.setDefaultInits, hoe, h1, h2, hdi] at h
    case pos =>
      simp [OMPReductionClause.Create, OMPReductionClause.setVars,
        OMPReductionClause.setOpExprs, OMPReductionClause.setHelperParameters1st,
        OMPReductionClause.setHelperParameters2nd,
        OMPReductionClause.setDefaultInits, hoe, h1, h2, hdi] at h
      subst h
      simp [hoe, h1, h2, hdi]
  · intro c a ha
    refine ⟨?_, ?_, ?_, ?_⟩
    · rw [OMPReductionClause.setOpExprs, if_neg ha]
    · rw [OMPReductionClause.setHelperParameters1st, if_neg ha]
    · rw [OMPReductionClause.setHelperParameters2nd, if_neg ha]
    · rw [OMPReductionClause.setDefaultInits, if_neg ha]

/-- Witness for `c8_clause_parallel_arrays`: concrete one-variable clauses
and a mismatched two-element array rejected by the setters. -/
theorem c8_clause_parallel_arrays_witness :
    (∃ c, OMPFirstPrivateClause.Create [some 1] [some 2] [some 3] = some c ∧
      c.numVars = 1 ∧ c.vars.length = 1 ∧ c.pseudoVars.length = 1 ∧
      c.inits.length = 1) ∧
    (∃ c, OMPReductionClause.Create [some 1] [some 2] [some 3] [some 4]
        [some 5] = some c ∧ c.numVars = 1 ∧ c.opExprs.length = 1) ∧
    OMPFirstPrivateClause.setPseudoVars
      { numVars := 1, vars := [some 1], pseudoVars := [], inits := [] }
      [some 2, some 3] = none := by
  refine ⟨⟨_, rfl, ?_⟩, ⟨_, rfl, ?_⟩, ?_⟩
  · have h := c8_clause_parallel_arrays.1 [some 1] [some 2] [some 3] _ rfl
    exact ⟨h.1, h.1 ▸ h.2.1, h.1 ▸ h.2.2.1, h.1 ▸ h.2.2.2⟩
  · have h := c8_clause_parallel_arrays.2.2.1 [some 1] [some 2] [some 3]
      [some 4] [some 5] _ rfl
    exact ⟨h.1, h.1 ▸ h.2.2.1⟩
  · exact (c8_clause_parallel_arrays.2.1
      { numVars := 1, vars := [some 1], pseudoVars := [], inits := [] }
      [some 2, some 3] (by decide)).1

/-- Scanning helper: over a remainder that is a run of non-`%` characters
followed by a lone trailing `%`, the loop reaches the end-of-string check
right after consuming the `%` and reports the malformed-escape error at
that `%`'s offset, whatever literal text has accumulated. -/
theorem analyzeLoop_trailing_pct (st : GCCAsmStmt) (hv : Bool)
    (s : List Char) :
    ∀ (fuel pos : Nat) (cur : String) (pieces : List AsmStringPiece),
      (∀ c ∈ s, c ≠ '%') → s.length < fuel →
      analyzeLoop st hv fuel (s ++ ['%']) pos cur pieces =
        .error (.err_asm_invalid_escape, pos + s.length) := by
  induction s with
  | nil =>
    intro fuel pos cur pieces _ hf
    match fuel, hf with
    | f + 1, _ =>
      simp only [List.nil_append, List.length_nil, Nat.add_zero, analyzeLoop]
      rw [if_neg (by decide), if_neg (by decide), if_neg (by decide),
        if_neg (by decide), if_pos trivial]
  | cons a t ih =>
    intro fuel pos cur pieces hnp hf
    match fuel, hf with
    | f + 1, hf =>
      have ha : ¬(a = '%') := hnp a (by simp)
      have ht : ∀ c ∈ t, c ≠ '%' := fun c hc => hnp c (by simp [hc])
      have hlt : t.length < f := by
        have := Nat.lt_of_succ_lt_succ (by simpa using hf)
        simpa using this
      have key : ∀ cur' : String,
          analyzeLoop st hv f (t ++ ['%']) (pos + 1) cur' pieces =
            .error (.err_asm_invalid_escape, pos + (a :: t).length) := by
        intro cur'
        rw [ih f (pos + 1) cur' pieces ht hlt]
        simp only [List.length_cons]
        congr 2
        omega
      simp only [List.cons_append, analyzeLoop]
      split_ifs <;> exact key _

/-- **C9**: in non-simple decomposition, a template that ends immediately
after a `%` yields the malformed-escape diagnostic, returned to the caller
as a `(diagnostic, byte offset)` pair — the result type, not an exception
— with the offset equal to the offset of that `%`; the scan stops at this
first error. -/
theorem c9_trailing_percent (st : GCCAsmStmt) (hv : Bool) (s : List Char)
    (hsimple : st.isSimple = false) (hstr : st.asmChars = s ++ ['%'])
    (hnp : ∀ c ∈ s, c ≠ '%') :
    st.AnalyzeAsmString hv =
      Except.error (AsmDiag.err_asm_invalid_escape, s.length) := by
  rw [GCCAsmStmt.AnalyzeAsmString, hsimple, hstr]
  simp only [Bool.false_eq_true, if_false]
  rw [analyzeLoop_trailing_pct st hv s _ 0 "" [] hnp
    (by simp only [List.length_append, List.length_cons, List.length_nil]; omega)]
  simp

/-- Witness for `c9_trailing_percent`: the input `"%"` gives the
invalid-escape error at offset 0. -/
theorem c9_trailing_percent_witness :
    GCCAsmStmt.AnalyzeAsmString
      ⟨false, false, ['%'], [], [], [], [], [], [], 0, 0⟩ true =
      Except.error (AsmDiag.err_asm_invalid_escape, 0) :=
  c9_trailing_percent ⟨false, false, ['%'], [], [], [], [], [], [], 0, 0⟩
    true [] rfl rfl (by simp)

/-- Escape handling on a digit run that exhausts the input, when the
operand index is out of range: the invalid-operand-number diagnostic is
reported one byte before the past-the-run scan position, i.e. at the last
digit. -/
theorem handleOperandRef_digit_fail (st : GCCAsmStmt) (m d : Char)
    (ds' : List Char) (p : Nat) (hd : isAsciiDigitChar d = true)
    (hall : ∀ c ∈ ds', isAsciiDigitChar c = true)
    (hle : st.outputNames.length + st.getNumPlusOperands +
      st.inputNames.length ≤
      (d :: ds').foldl (fun n ch => (n * 10 + (ch.toNat - 48)) % 4294967296) 0) :
    handleOperandRef st m d ds' p =
      EscResult.fail AsmDiag.err_asm_invalid_operand_number (p + ds'.length) := by
  rw [handleOperandRef, if_pos hd,
    List.takeWhile_eq_self_iff.mpr hall, if_pos hle]
  congr 1
  omega

/-- Escape handling on a digit run that exhausts the input, when the
operand index is in range: an operand piece carrying the accumulated index
and the modifier. -/
theorem handleOperandRef_digit_piece (st : GCCAsmStmt) (m d : Char)
    (ds' : List Char) (p : Nat) (hd : isAsciiDigitChar d = true)
    (hall : ∀ c ∈ ds', isAsciiDigitChar c = true)
    (hlt : (d :: ds').foldl
        (fun n ch => (n * 10 + (ch.toNat - 48)) % 4294967296) 0 <
      st.outputNames.length + st.getNumPlusOperands + st.inputNames.length) :
    handleOperandRef st m d ds' p =
      EscResult.piece
        ((d :: ds').foldl (fun n ch => (n * 10 + (ch.toNat - 48)) % 4294967296) 0)
        m [] (p + 1 + ds'.length) := by
  rw [handleOperandRef, if_pos hd,
    List.takeWhile_eq_self_iff.mpr hall,
    List.dropWhile_eq_nil_iff.mpr hall, if_neg (Nat.not_le.mpr hlt)]

/-- **C2** (amended): in non-simple decomposition, `%` followed by a digit
run parses the run as a decimal operand index `N` (32-bit unsigned
accumulation); if `N` is not below outputs + "+"-constrained outputs +
inputs, the invalid-operand-number diagnostic is returned with the
reported byte offset equal to the offset of the **last** digit of the run
(the scan pointer past the run, minus one) — not the start of the run —
otherwise an operand-reference piece carrying `N` (and the captured
modifier, here absent) is emitted. -/
theorem c2_digit_operand_reference (st : GCCAsmStmt) (hv : Bool)
    (ds : List Char) (N numOperands : Nat)
    (hsimple : st.isSimple = false) (hstr : st.asmChars = '%' :: ds)
    (hne : ds ≠ []) (hdig : ∀ c ∈ ds, isAsciiDigitChar c = true)
    (hN : N = ds.foldl (fun n ch => (n * 10 + (ch.toNat - 48)) % 4294967296) 0)
    (hOps : numOperands = st.outputNames.length + st.getNumPlusOperands +
      st.inputNames.length) :
    (numOperands ≤ N →
      st.AnalyzeAsmString hv =
        Except.error (AsmDiag.err_asm_invalid_operand_number, ds.length)) ∧
    (N < numOperands →
      st.AnalyzeAsmString hv = Except.ok [AsmStringPiece.operand N nulChar]) := by
  obtain ⟨d, ds', rfl⟩ := List.exists_cons_of_ne_nil hne
  subst hN hOps
  have hd : isAsciiDigitChar d = true := hdig d (by simp)
  have hds' : ∀ c ∈ ds', isAsciiDigitChar c = true :=
    fun c hc => hdig c (by simp [hc])
  have hdnum : 48 ≤ d.toNat ∧ d.toNat ≤ 57 := by
    simpa [isAsciiDigitChar, Bool.and_eq_true, decide_eq_true_eq] using hd
  have hdpct : ¬(d = '%') := by
    intro h
    subst h
    exact absurd hdnum (by decide)
  have hdeq : ¬(d = '=') := by
    intro h
    subst h
    exact absurd hdnum (by decide)
  have hdlet : isAsciiLetterChar d = false := by
    refine Bool.eq_false_iff.mpr ?_
    simp only [ne_eq, isAsciiLetterChar, Bool.or_eq_true, Bool.and_eq_true,
      decide_eq_true_eq]
    omega
  have hds0 : ¬(('%' : Char) = '$') := by decide
  have hlb : ¬(('%' : Char) = lbraceChar) := by decide
  have hpipe : ¬(('%' : Char) = '|') := by decide
  have hrb : ¬(('%' : Char) = rbraceChar) := by decide
  have hemp : ("" : String).isEmpty = true := rfl
  rw [GCCAsmStmt.AnalyzeAsmString, hsimple, hstr]
  simp only [Bool.false_eq_true, if_false, List.length_cons]
  constructor
  · intro hle
    simp only [analyzeLoop, hds0, hlb, hpipe, hrb, hd, hdlet,
      hdpct, hdeq, hemp, Bool.false_eq_true, if_true, if_false, ite_true,
      ite_false, eq_self_iff_true, List.nil_append, Nat.zero_add]
    rw [handleOperandRef_digit_fail st nulChar d ds' 1 hd hds' hle]
    simp only [List.length_cons]
    congr 2
    omega
  · intro hlt
    simp only [analyzeLoop, hds0, hlb, hpipe, hrb, hd, hdlet,
      hdpct, hdeq, hemp, Bool.false_eq_true, if_true, if_false, ite_true,
      ite_false, eq_self_iff_true, List.nil_append, Nat.zero_add]
    rw [handleOperandRef_digit_piece st nulChar d ds' 1 hd hds' hlt]

/-- The concrete input of C2's counterexample: the template `"%10"` with
one output (constraint `"=r"`, so no "+"-duplication) and one input — two
operands in total. -/
def asmStmtPct10 : GCCAsmStmt :=
  { isSimple := false
    isVolatile := false
    asmChars := ['%', '1', '0']
    outputNames := ["out0"]
    outputConstraints := ["=r"]
    inputNames := ["in0"]
    inputConstraints := ["r"]
    exprs := []
    clobbers := []
    asmLoc := 0
    rparenLoc := 0 }

/-- Counterexample to **C2** as stated: on `"%10"` with 2 operands the
digit run starts at byte offset 1, but the diagnostic is reported at
offset 2 (the last digit), so the reported offset is not the start offset
of the digit run. -/
theorem c2_counterexample :
    asmStmtPct10.AnalyzeAsmString true =
      Except.error (AsmDiag.err_asm_invalid_operand_number, 2) ∧
    asmStmtPct10.AnalyzeAsmString true ≠
      Except.error (AsmDiag.err_asm_invalid_operand_number, 1) := by
  have h : asmStmtPct10.AnalyzeAsmString true =
      Except.error (AsmDiag.err_asm_invalid_operand_number, 2) := rfl
  refine ⟨h, ?_⟩
  rw [h]
  simp

/-- Witness for `c2_digit_operand_reference`: the same `"%10"` input, two
operands, `N = 10 ≥ 2`, error at offset 2. -/
theorem c2_digit_operand_reference_witness :
    asmStmtPct10.AnalyzeAsmString true =
      Except.error (AsmDiag.err_asm_invalid_operand_number, 2) :=
  (c2_digit_operand_reference asmStmtPct10 true ['1', '0'] 10 2 rfl rfl
    (by simp) (by decide) (by decide) (by decide)).1 (by decide)

/-- Escape handling on `[` with no closing `]` in the remainder: the
unterminated-name diagnostic at the offset of the `[`. -/
theorem handleOperandRef_bracket_unterminated (st : GCCAsmStmt) (m : Char)
    (t : List Char) (p : Nat) (hnb : ∀ c ∈ t, ¬(c = ']')) :
    handleOperandRef st m '[' t p =
      EscResult.fail AsmDiag.err_asm_unterminated_symbolic_operand_name p := by
  have hfi : t.findIdx? (fun ch => ch = ']') = none :=
    List.findIdx?_eq_none_iff.mpr
      (fun x hx => by simp [hnb x hx])
  rw [handleOperandRef, if_neg (by decide), if_pos rfl, hfi]

/-- Escape handling on `[` immediately followed by `]`: the empty-name
diagnostic at the offset of the `[`. -/
theorem handleOperandRef_bracket_empty (st : GCCAsmStmt) (m : Char)
    (r : List Char) (p : Nat) :
    handleOperandRef st m '[' (']' :: r) p =
      EscResult.fail AsmDiag.err_asm_empty_symbolic_operand_name p := by
  rw [handleOperandRef, if_neg (by decide), if_pos rfl]
  simp

/-- The first `]` after a bracket name that itself contains no `]` sits
exactly past the name. -/
theorem findIdx_rbracket_after_name (nm : List Char)
    (hnb : ∀ c ∈ nm, ¬(c = ']')) :
    (nm ++ [']']).findIdx? (fun ch => ch = ']') = some nm.length := by
  have hnone : nm.findIdx? (fun ch => ch = ']') = none :=
    List.findIdx?_eq_none_iff.mpr (fun x hx => by simp [hnb x hx])
  rw [List.findIdx?_append, hnone]
  simp

/-- Escape handling on `[name]` when the name does not resolve: the
unknown-name diagnostic at the offset of the name's first character. -/
theorem handleOperandRef_bracket_unknown (st : GCCAsmStmt) (m : Char)
    (nm : List Char) (p : Nat) (hne : nm ≠ []) (hnb : ∀ c ∈ nm, ¬(c = ']'))
    (hres : st.getNamedOperand (String.mk nm) = none) :
    handleOperandRef st m '[' (nm ++ [']']) p =
      EscResult.fail AsmDiag.err_asm_unknown_symbolic_operand_name (p + 1) := by
  rw [handleOperandRef, if_neg (by decide), if_pos rfl,
    findIdx_rbracket_after_name nm hnb]
  have hlen : ¬(nm.length = 0) := fun h => hne (List.length_eq_zero.mp h)
  simp only [if_neg hlen, List.take_left, hres]

/-- Escape handling on `[name]` when the name resolves to operand `n`: an
operand piece carrying `n`, consuming through the `]`. -/
theorem handleOperandRef_bracket_found (st : GCCAsmStmt) (m : Char)
    (nm : List Char) (n : Nat) (p : Nat) (hne : nm ≠ [])
    (hnb : ∀ c ∈ nm, ¬(c = ']'))
    (hres : st.getNamedOperand (String.mk nm) = some n) :
    handleOperandRef st m '[' (nm ++ [']']) p =
      EscResult.piece n m [] (p + 1 + (nm.length + 1)) := by
  rw [handleOperandRef, if_neg (by decide), if_pos rfl,
    findIdx_rbracket_after_name nm hnb]
  have hlen : ¬(nm.length = 0) := fun h => hne (List.length_eq_zero.mp h)
  have hdrop : List.drop (nm.length + 1) (nm ++ [']']) = [] := by
    rw [show nm.length + 1 = (nm ++ [']']).length by simp, List.drop_length]
  simp only [if_neg hlen, List.take_left, hres, hdrop]

/-- One scanning step on an operand-reference escape without a modifier
letter: the loop flushes the literal buffer, delegates to the escape
handler, and either reports its error pair or emits the operand piece and
continues. -/
theorem analyzeLoop_operand_escape_step (st : GCCAsmStmt) (hv : Bool)
    (f : Nat) (e : Char) (rest2 : List Char) (pos : Nat) (cur : String)
    (pieces : List AsmStringPiece)
    (hep : ¬(e = '%')) (heq : ¬(e = '=')) (hlet : isAsciiLetterChar e = false) :
    analyzeLoop st hv (f + 1) ('%' :: e :: rest2) pos cur pieces =
      match handleOperandRef st nulChar e rest2 (pos + 1) with
      | .fail d o => Except.error (d, o)
      | .piece n m next np =>
        analyzeLoop st hv f next np ""
          ((if cur.isEmpty then pieces else pieces ++ [.literal cur]) ++
            [.operand n m]) := by
  have hds0 : ¬(('%' : Char) = '$') := by decide
  have hlb : ¬(('%' : Char) = lbraceChar) := by decide
  have hpipe : ¬(('%' : Char) = '|') := by decide
  have hrb : ¬(('%' : Char) = rbraceChar) := by decide
  simp only [analyzeLoop, hds0, hlb, hpipe, hrb, hep, heq, hlet,
    Bool.false_eq_true, if_true, if_false, ite_true, ite_false,
    eq_self_iff_true]

/-- **C5**: `%[name]` scans to the matching `]` (missing `]` is the
unterminated-name error, an empty name the empty-name error); the name is
resolved by an exact linear scan over output operand names first, then
input operand names, first match winning (an input match reporting
`outputs + 0 + i` since the local plus-counter stays zero); no match is
the unknown-name error; a match emits a numeric operand-reference piece
carrying the resolved index. -/
theorem c5_symbolic_operand_reference :
    (∀ (st : GCCAsmStmt) (hv : Bool) (t : List Char),
      st.isSimple = false → st.asmChars = '%' :: '[' :: t →
      (∀ c ∈ t, ¬(c = ']')) →
      st.AnalyzeAsmString hv =
        Except.error (AsmDiag.err_asm_unterminated_symbolic_operand_name, 1)) ∧
    (∀ (st : GCCAsmStmt) (hv : Bool) (r : List Char),
      st.isSimple = false → st.asmChars = '%' :: '[' :: ']' :: r →
      st.AnalyzeAsmString hv =
        Except.error (AsmDiag.err_asm_empty_symbolic_operand_name, 1)) ∧
    (∀ (st : GCCAsmStmt) (hv : Bool) (nm : List Char),
      st.isSimple = false → st.asmChars = '%' :: '[' :: (nm ++ [']']) →
      nm ≠ [] → (∀ c ∈ nm, ¬(c = ']')) →
      st.getNamedOperand (String.mk nm) = none →
      st.AnalyzeAsmString hv =
        Except.error (AsmDiag.err_asm_unknown_symbolic_operand_name, 2)) ∧
    (∀ (st : GCCAsmStmt) (hv : Bool) (nm : List Char) (n : Nat),
      st.isSimple = false → st.asmChars = '%' :: '[' :: (nm ++ [']']) →
      nm ≠ [] → (∀ c ∈ nm, ¬(c = ']')) →
      st.getNamedOperand (String.mk nm) = some n →
      st.AnalyzeAsmString hv = Except.ok [AsmStringPiece.operand n nulChar]) ∧
    (∀ (st : GCCAsmStmt) (name : String) (i : Nat),
      st.outputNames.findIdx? (fun s => s = name) = some i →
      st.getNamedOperand name = some i) ∧
    (∀ (st : GCCAsmStmt) (name : String) (j : Nat),
      st.outputNames.findIdx? (fun s => s = name) = none →
      st.inputNames.findIdx? (fun s => s = name) = some j →
      st.getNamedOperand name = some (st.outputNames.length + j)) ∧
    (∀ (st : GCCAsmStmt) (name : String),
      st.outputNames.findIdx? (fun s => s = name) = none →
      st.inputNames.findIdx? (fun s => s = name) = none →
      st.getNamedOperand name = none) := by
  have hds0 : ¬(('%' : Char) = '$') := by decide
  have hlb : ¬(('%' : Char) = lbraceChar) := by decide
  have hpipe : ¬(('%' : Char) = '|') := by decide
  have hrb : ¬(('%' : Char) = rbraceChar) := by decide
  have hbp : ¬(('[' : Char) = '%') := by decide
  have hbq : ¬(('[' : Char) = '=') := by decide
  have hblet : isAsciiLetterChar '[' = false := by decide
  have hemp : ("" : String).isEmpty = true := rfl
  refine ⟨?_, ?_, ?_, ?_, ?_, ?_, ?_⟩
  · intro st hv t hsimple hstr hnb
    rw [GCCAsmStmt.AnalyzeAsmString, hsimple, hstr]
    simp only [Bool.false_eq_true, if_false, List.length_cons]
    rw [analyzeLoop_operand_escape_step st hv (t.length + 1 + 1) '[' t 0 ""
      [] hbp hbq hblet]
    rw [handleOperandRef_bracket_unterminated st nulChar t (0 + 1) hnb]
  · intro st hv r hsimple hstr
    rw [GCCAsmStmt.AnalyzeAsmString, hsimple, hstr]
    simp only [Bool.false_eq_true, if_false, List.length_cons]
    rw [analyzeLoop_operand_escape_step st hv (r.length + 1 + 1 + 1) '['
      (']' :: r) 0 "" [] hbp hbq hblet]
    rw [handleOperandRef_bracket_empty st nulChar r (0 + 1)]
  · intro st hv nm hsimple hstr hne hnb hres
    rw [GCCAsmStmt.AnalyzeAsmString, hsimple, hstr]
    simp only [Bool.false_eq_true, if_false, List.length_cons]
    rw [analyzeLoop_operand_escape_step st hv ((nm ++ [']']).length + 1 + 1)
      '[' (nm ++ [']']) 0 "" [] hbp hbq hblet]
    rw [handleOperandRef_bracket_unknown st nulChar nm (0 + 1) hne hnb hres]
  · intro st hv nm n hsimple hstr hne hnb hres
    rw [GCCAsmStmt.AnalyzeAsmString, hsimple, hstr]
    simp only [Bool.false_eq_true, if_false, List.length_cons]
    rw [analyzeLoop_operand_escape_step st hv ((nm ++ [']']).length + 1 + 1)
      '[' (nm ++ [']']) 0 "" [] hbp hbq hblet]
    rw [handleOperandRef_bracket_found st nulChar nm n (0 + 1) hne hnb hres]
    rfl
  · intro st name i h
    rw [GCCAsmStmt.getNamedOperand, h]
  · intro st name j h1 h2
    rw [GCCAsmStmt.getNamedOperand, h1, h2]
    simp
  · intro st name h1 h2
    rw [GCCAsmStmt.getNamedOperand, h1, h2]

/-- Witness for `c5_symbolic_operand_reference`: `"%[foo]"` with output
name `"foo"` at index 0 produces the single piece `operand(0)`. -/
theorem c5_symbolic_operand_reference_witness :
    GCCAsmStmt.AnalyzeAsmString
      ⟨false, false, ['%', '[', 'f', 'o', 'o', ']'], ["foo"], ["=r"],
        [], [], [], [], 0, 0⟩ true =
      Except.ok [AsmStringPiece.operand 0 nulChar] :=
  c5_symbolic_operand_reference.2.2.2.1
    ⟨false, false, ['%', '[', 'f', 'o', 'o', ']'], ["foo"], ["=r"],
      [], [], [], [], 0, 0⟩ true ['f', 'o', 'o'] 0 rfl rfl (by decide)
    (by decide) rfl
